import Mathlib

/-!
# chunkymonkey: slot routing, block type table and player connection

A shallow embedding of three source files of the server:

* `chunkymonkey/window/workbench_window.go`: `WorkbenchWindow.Click`
* `chunkymonkey/block/blockcore.go`: `BlockTypeList.Get`, `BlockTypeList.CreateBlockItemTypes`
* `chunkymonkey/player.go`: `TransmitPacket`, `PacketDisconnect`, `receiveLoop`, `mainLoop`

Go values are embedded as follows.  Integers that index slots and tables are `Int`/`Nat`
(no arithmetic of the embedded functions can overflow: the only subtraction is
`slotId - start` with `0 ≤ start ≤ slotId`).  A `[]byte` is `Option (List Byte)`, `none`
being the nil slice.  A map is either the nil map or its entries by lookup.  A buffered
channel is its buffer, its capacity and its closed flag.  Run-time panics are values of
`Fault`.  Code of packages that are not part of the embedded files (`inventory`, `proto`,
`itemtype`) is taken as a parameter.
-/

set_option autoImplicit false

namespace Chunkymonkey

/-! ## Shared run-time notions -/

/-- Run-time panics of the Go runtime that the embedded code can raise. -/
inductive Fault where
  | indexOutOfRange (index : Int) (len : Nat)
  | sendOnClosedChannel
  | closeOfClosedChannel
  | nilFuncCall
  | assignToNilMap
  deriving DecidableEq, Repr

/-- Result of an operation that can block on a channel or panic. -/
inductive Outcome (σ : Type) where
  | done (s : σ)
  | blocked
  | fault (f : Fault)
  deriving DecidableEq, Repr

/-! ## window/workbench_window.go -/

namespace Window

/-- The constants the slot layout of the workbench window is computed from.  They are
declared outside the embedded file (`inventory.WorkbenchInvCraftWidth`,
`inventory.WorkbenchInvCraftHeight`, `playerInvMainNum`, `playerInvHoldingNum`) and are
counts of slots. -/
structure SlotCounts where
  WorkbenchInvCraftWidth : Nat
  WorkbenchInvCraftHeight : Nat
  playerInvMainNum : Nat
  playerInvHoldingNum : Nat
  deriving DecidableEq, Repr

def workbenchInvCraftNum (k : SlotCounts) : Int :=
  1 + (k.WorkbenchInvCraftWidth : Int) * (k.WorkbenchInvCraftHeight : Int)

def workbenchInvCraftStart : Int := 0

def workbenchInvCraftEnd (k : SlotCounts) : Int :=
  workbenchInvCraftStart + workbenchInvCraftNum k

def workbenchInvMainStart (k : SlotCounts) : Int := workbenchInvCraftEnd k

def workbenchInvMainEnd (k : SlotCounts) : Int :=
  workbenchInvMainStart k + (k.playerInvMainNum : Int)

def workbenchInvHoldingStart (k : SlotCounts) : Int := workbenchInvMainEnd k

def workbenchInvHoldingEnd (k : SlotCounts) : Int :=
  workbenchInvHoldingStart k + (k.playerInvHoldingNum : Int)

/-- The two click operations of package `inventory` that the window dispatches to.  Each
receives the inventory, the local slot index, the cursor slot and the two flags, and
returns the inventory and the cursor as it leaves them together with `accepted`.  A slot
index (`SlotId` of package `types`) is an `Int`. -/
structure InventoryOps (WInv Inv Slot : Type) where
  /-- Method `(*WorkbenchInventory).Click`. -/
  Click : WInv → Int → Slot → Bool → Bool → WInv × Slot × Bool
  /-- Method `(*Inventory).StandardClick`. -/
  StandardClick : Inv → Int → Slot → Bool → Bool → Inv × Slot × Bool

/-- The three inventories a `WorkbenchWindow` points to. -/
structure WorkbenchWindow (WInv Inv : Type) where
  crafting : WInv
  main : Inv
  holding : Inv
  deriving DecidableEq, Repr

/-- One call made by `WorkbenchWindow.Click` into a sub-inventory, with its arguments. -/
inductive SubCall (Slot : Type) where
  | craftingClick (slotId : Int) (cursor : Slot) (rightClick shiftClick : Bool)
  | mainStandardClick (slotId : Int) (cursor : Slot) (rightClick shiftClick : Bool)
  | holdingStandardClick (slotId : Int) (cursor : Slot) (rightClick shiftClick : Bool)
  deriving DecidableEq, Repr

/-- What a click leaves behind: the inventories, the cursor, the returned `accepted` and
the calls made into the sub-inventories, in order. -/
structure ClickResult (WInv Inv Slot : Type) where
  window : WorkbenchWindow WInv Inv
  cursor : Slot
  accepted : Bool
  calls : List (SubCall Slot)
  deriving DecidableEq, Repr

/-- Method `(*WorkbenchWindow).Click`: the `switch` of the source, case by case. -/
def WorkbenchWindow.Click {WInv Inv Slot : Type} (k : SlotCounts)
    (ops : InventoryOps WInv Inv Slot) (w : WorkbenchWindow WInv Inv) (slotId : Int)
    (cursor : Slot) (rightClick shiftClick : Bool) : ClickResult WInv Inv Slot :=
  if slotId < 0 then
    { window := w, cursor := cursor, accepted := false, calls := [] }
  else if slotId < workbenchInvCraftEnd k then
    let r := ops.Click w.crafting (slotId - workbenchInvCraftStart) cursor rightClick shiftClick
    { window := { w with crafting := r.1 }, cursor := r.2.1, accepted := r.2.2,
      calls := [SubCall.craftingClick (slotId - workbenchInvCraftStart) cursor
        rightClick shiftClick] }
  else if slotId < workbenchInvMainEnd k then
    let r := ops.StandardClick w.main (slotId - workbenchInvMainStart k) cursor
      rightClick shiftClick
    { window := { w with main := r.1 }, cursor := r.2.1, accepted := r.2.2,
      calls := [SubCall.mainStandardClick (slotId - workbenchInvMainStart k) cursor
        rightClick shiftClick] }
  else if slotId < workbenchInvHoldingEnd k then
    let r := ops.StandardClick w.holding (slotId - workbenchInvHoldingStart k) cursor
      rightClick shiftClick
    { window := { w with holding := r.1 }, cursor := r.2.1, accepted := r.2.2,
      calls := [SubCall.holdingStandardClick (slotId - workbenchInvHoldingStart k) cursor
        rightClick shiftClick] }
  else
    { window := w, cursor := cursor, accepted := false, calls := [] }

/-! ### Reference routing over the three slot ranges -/

/-- The three regions of the workbench window. -/
inductive Region where
  | craft
  | main
  | holding
  deriving DecidableEq, Repr

/-- First slot index of a region. -/
def Region.start (k : SlotCounts) : Region → Int
  | .craft => workbenchInvCraftStart
  | .main => workbenchInvMainStart k
  | .holding => workbenchInvHoldingStart k

/-- One past the last slot index of a region. -/
def Region.stop (k : SlotCounts) : Region → Int
  | .craft => workbenchInvCraftEnd k
  | .main => workbenchInvMainEnd k
  | .holding => workbenchInvHoldingEnd k

/-- A flat slot index lies in the half-open range of a region. -/
def Region.contains (k : SlotCounts) (r : Region) (slotId : Int) : Prop :=
  r.start k ≤ slotId ∧ slotId < r.stop k

instance (k : SlotCounts) (r : Region) (slotId : Int) : Decidable (r.contains k slotId) := by
  unfold Region.contains
  exact inferInstance

/-- The region whose range contains the flat slot index, if there is one. -/
def owningRegion (k : SlotCounts) (slotId : Int) : Option Region :=
  [Region.craft, Region.main, Region.holding].find? (fun r => decide (r.contains k slotId))

/-- Reference routing of a click, written from the description of the routing: the
sub-inventory owning the range that contains the flat index receives the click at the
local index `slotId - start`; a flat index in no range invokes nothing and is not
accepted. -/
def routeClick {WInv Inv Slot : Type} (k : SlotCounts) (ops : InventoryOps WInv Inv Slot)
    (w : WorkbenchWindow WInv Inv) (slotId : Int) (cursor : Slot)
    (rightClick shiftClick : Bool) : ClickResult WInv Inv Slot :=
  match owningRegion k slotId with
  | none => { window := w, cursor := cursor, accepted := false, calls := [] }
  | some .craft =>
    let r := ops.Click w.crafting (slotId - Region.craft.start k) cursor rightClick shiftClick
    { window := { w with crafting := r.1 }, cursor := r.2.1, accepted := r.2.2,
      calls := [SubCall.craftingClick (slotId - Region.craft.start k) cursor
        rightClick shiftClick] }
  | some .main =>
    let r := ops.StandardClick w.main (slotId - Region.main.start k) cursor
      rightClick shiftClick
    { window := { w with main := r.1 }, cursor := r.2.1, accepted := r.2.2,
      calls := [SubCall.mainStandardClick (slotId - Region.main.start k) cursor
        rightClick shiftClick] }
  | some .holding =>
    let r := ops.StandardClick w.holding (slotId - Region.holding.start k) cursor
      rightClick shiftClick
    { window := { w with holding := r.1 }, cursor := r.2.1, accepted := r.2.2,
      calls := [SubCall.holdingStandardClick (slotId - Region.holding.start k) cursor
        rightClick shiftClick] }

/-- The click operations used to run the routing on concrete inventories: an inventory is
the list of local indices clicked so far, the cursor counts the clicks, and a click is
accepted when it is not a right click. -/
def sampleOps : InventoryOps (List Int) (List Int) Nat where
  Click := fun inv slotId cursor rightClick _ => (slotId :: inv, cursor + 1, !rightClick)
  StandardClick := fun inv slotId cursor rightClick _ => (slotId :: inv, cursor + 2, !rightClick)

/-- The slot counts of a 3 by 3 crafting grid, 27 main slots and 9 holding slots. -/
def sampleCounts : SlotCounts :=
  { WorkbenchInvCraftWidth := 3, WorkbenchInvCraftHeight := 3, playerInvMainNum := 27,
    playerInvHoldingNum := 9 }

end Window

/-! ## block/blockcore.go -/

namespace Block

/-- Attributes of a block type, struct `BlockAttrs`. -/
structure BlockAttrs where
  Name : String
  Opacity : Int
  defined : Bool
  Destructable : Bool
  Solid : Bool
  Replaceable : Bool
  Attachable : Bool
  deriving DecidableEq, Repr

/-- The core information about any block type, struct `BlockType`.  The interface value
`Aspect` is kept as a handle: none of the embedded functions calls into it. -/
structure BlockType extends BlockAttrs where
  Aspect : Nat
  deriving DecidableEq, Repr

/-- Lookup table of blocks, `BlockTypeList`: a slice of `BlockType`. -/
abbrev BlockTypeList := List BlockType

/-- Method `(*BlockTypeList).Get`.  The returned pointer `&(*btl)[id]` is the index it
points at; `none` is the nil pointer of the early return.  The index expression
`(*btl)[id]` panics when `id` is not an index of the slice. -/
def BlockTypeList.Get (btl : BlockTypeList) (id : Int) : Except Fault (Option Nat × Bool) :=
  if id < 0 ∨ id > (btl.length : Int) then
    .ok (none, false)
  else
    match btl[id.toNat]? with
    | none => .error (Fault.indexOutOfRange id btl.length)
    | some block => .ok (some id.toNat, block.defined)

/-- An item type, struct `itemtype.ItemType`, with the fields the composite literal of
`CreateBlockItemTypes` sets.  `K` is the type `ItemTypeId`. -/
structure ItemType (K : Type) where
  Id : K
  Name : String
  MaxStack : Nat
  deriving DecidableEq, Repr

/-- A pointer `*itemtype.ItemType`, the value type of the map: `none` is the nil pointer,
`some it` points at `it`. -/
abbrev ItemTypePtr (K : Type) := Option (ItemType K)

/-- The map `itemtype.ItemTypeMap`.  A map value is either the nil map or a map that was
made, given by its entries: the lookup of a key is `none` when the key is absent and the
pointer stored under it otherwise. -/
inductive ItemTypeMap (K : Type) where
  | nil
  | made (entries : K → Option (ItemTypePtr K))

/-- Index expression `v, exists := itemTypes[key]`: `none` when `exists` is false.  A nil
map has no key. -/
def ItemTypeMap.lookup {K : Type} (itemTypes : ItemTypeMap K) (key : K) :
    Option (ItemTypePtr K) :=
  match itemTypes with
  | .nil => none
  | .made entries => entries key

/-- Map assignment `itemTypes[key] = value`.  It panics on the nil map. -/
def ItemTypeMap.assign {K : Type} [DecidableEq K] (itemTypes : ItemTypeMap K) (key : K)
    (value : ItemTypePtr K) : Except Fault (ItemTypeMap K) :=
  match itemTypes with
  | .nil => .error Fault.assignToNilMap
  | .made entries => .ok (.made (fun k => if k = key then some value else entries k))

/-- The loop `for id := range *btl` of `CreateBlockItemTypes`, from index `id` on, where
`rest` holds the entries of the table from index `id`.  `toItemTypeId` is the conversion
`ItemTypeId(id)` and `MaxStackDefault` the constant `itemtype.MaxStackDefault`.  The result
is the map as the loop leaves it, or the panic that ends it. -/
def createBlockItemTypesFrom {K : Type} [DecidableEq K] (toItemTypeId : Nat → K)
    (MaxStackDefault : Nat) :
    List BlockType → Nat → ItemTypeMap K → Except Fault (ItemTypeMap K)
  | [], _, itemTypes => .ok itemTypes
  | blockType :: rest, id, itemTypes =>
    if !blockType.defined then
      createBlockItemTypesFrom toItemTypeId MaxStackDefault rest (id + 1) itemTypes
    else if (itemTypes.lookup (toItemTypeId id)).isSome then
      createBlockItemTypesFrom toItemTypeId MaxStackDefault rest (id + 1) itemTypes
    else
      match itemTypes.assign (toItemTypeId id)
          (some { Id := toItemTypeId id, Name := blockType.Name,
                  MaxStack := MaxStackDefault }) with
      | .error f => .error f
      | .ok assigned =>
        createBlockItemTypesFrom toItemTypeId MaxStackDefault rest (id + 1) assigned

/-- Method `(*BlockTypeList).CreateBlockItemTypes` on the table its receiver points to:
the map as the call leaves it, or the panic that ends the call. -/
def BlockTypeList.CreateBlockItemTypes {K : Type} [DecidableEq K] (toItemTypeId : Nat → K)
    (MaxStackDefault : Nat) (btl : BlockTypeList) (itemTypes : ItemTypeMap K) :
    Except Fault (ItemTypeMap K) :=
  createBlockItemTypesFrom toItemTypeId MaxStackDefault btl 0 itemTypes

/-- The lookup of a key in the map a call leaves; `none` also when the call panicked. -/
def lookupAfter {K : Type} (result : Except Fault (ItemTypeMap K)) (key : K) :
    Option (ItemTypePtr K) :=
  match result with
  | .error _ => none
  | .ok itemTypes => itemTypes.lookup key

/-- A table of three block types: stone, an entry that is not defined, and dirt. -/
def sampleBlocks : BlockTypeList :=
  [ { Name := "stone", Opacity := 15, defined := true, Destructable := true, Solid := true,
      Replaceable := false, Attachable := true, Aspect := 0 },
    { Name := "", Opacity := 0, defined := false, Destructable := false, Solid := false,
      Replaceable := false, Attachable := false, Aspect := 0 },
    { Name := "dirt", Opacity := 15, defined := true, Destructable := true, Solid := true,
      Replaceable := false, Attachable := true, Aspect := 0 } ]

/-- The entries of a map holding one item type, under key 0. -/
def sampleItems : Nat → Option (ItemTypePtr Nat) :=
  fun key =>
    if key = 0 then some (some { Id := 0, Name := "cobble", MaxStack := 16 }) else none

end Block

/-! ## player.go -/

namespace Players

/-- One byte of a packet. -/
abbrev Byte := Fin 256

/-- A Go `[]byte`: `none` is the nil slice, `some bs` a non-nil slice holding `bs`
(`some []` is a non-nil slice of length zero, such as `[]byte{}`). -/
abbrev Bytes := Option (List Byte)

/-- A buffered Go channel: the values buffered (oldest first), the capacity given to
`make`, and whether `close` was called on it. -/
structure Chan (α : Type) where
  buf : List α
  cap : Nat
  closed : Bool
  deriving DecidableEq, Repr

/-- Statement `c <- v`.  It panics on a closed channel, appends to the buffer when there is
room, and otherwise blocks. -/
def Chan.send {α : Type} (c : Chan α) (v : α) : Outcome (Chan α) :=
  if c.closed then .fault Fault.sendOnClosedChannel
  else if c.buf.length < c.cap then .done { c with buf := c.buf ++ [v] }
  else .blocked

/-- Statement `close(c)`.  It panics on a channel that is already closed. -/
def Chan.close {α : Type} (c : Chan α) : Except Fault (Chan α) :=
  if c.closed then .error Fault.closeOfClosedChannel
  else .ok { c with closed := true }

/-- What a receive `<-c` finds. -/
inductive Received (α : Type) where
  /-- A buffered value, and the channel without it. -/
  | value (v : α) (c : Chan α)
  /-- The channel is closed and drained: the receive yields the zero value. -/
  | drained
  /-- The channel is open and empty: the receive blocks. -/
  | blocked
  deriving DecidableEq, Repr

/-- Expression `<-c`. -/
def Chan.recv {α : Type} (c : Chan α) : Received α :=
  match c.buf with
  | v :: rest => .value v { c with buf := rest }
  | [] => if c.closed then .drained else .blocked

/-- The connection `net.Conn` of a player: whether `Close` was called on it, and the
payloads `Write` has put on it, oldest first. -/
structure Conn where
  closed : Bool
  written : List (List Byte)
  deriving DecidableEq, Repr

/-- Call `conn.Write(bs)`: an error (`none`) on a closed connection. -/
def Conn.Write (conn : Conn) (bs : List Byte) : Option Conn :=
  if conn.closed then none else some { conn with written := conn.written ++ [bs] }

/-- Call `conn.Close()`. -/
def Conn.Close (conn : Conn) : Conn := { conn with closed := true }

/-- The fields of struct `Player` that the embedded functions use: the connection and the
two queues.  `κ` is the type of the closures `func(IPlayer)` held by `mainQueue`.  The
mutex `lock` has no counterpart: every embedded function runs on its own from start to
end. -/
structure Player (κ : Type) where
  name : String
  conn : Conn
  mainQueue : Chan κ
  txQueue : Chan Bytes
  deriving DecidableEq, Repr

/-- A closure that a player hands to `game.Enqueue`. -/
inductive GameCall where
  /-- The closure of `PacketChatMessage`: `game.SendChatMessage(message)`. -/
  | sendChatMessage (message : String)
  /-- The closure of `PacketDisconnect`: `game.RemovePlayer(player)`,
  `close(player.txQueue)`, `player.conn.Close()`. -/
  | disconnect
  deriving DecidableEq, Repr

/-- A player together with what surrounds it: the closures it has enqueued on the game
(oldest first; the queue of the game is taken to have room), whether the game lists it
(`AddPlayer`/`RemovePlayer`), the counter `expVarPlayerDisconnectionCount`, and whether its
`receiveLoop` and `mainLoop` goroutines are still running.  Lines written to the log are
not kept. -/
structure World (κ : Type) where
  player : Player κ
  gameQueue : List GameCall
  listed : Bool
  disconnectionCount : Nat
  receiveLoopRunning : Bool
  mainLoopRunning : Bool
  deriving DecidableEq, Repr

/-- The player that `StartPlayer` builds, as it stands once the closure of `StartPlayer`
has called `game.AddPlayer` and `player.start()`: both queues made with capacity 128 and
empty, the connection open, the player listed, both loops running. -/
def startedPlayer (κ : Type) (name : String) : World κ :=
  { player :=
      { name := name
        conn := { closed := false, written := [] }
        mainQueue := { buf := [], cap := 128, closed := false }
        txQueue := { buf := [], cap := 128, closed := false } }
    gameQueue := []
    listed := true
    disconnectionCount := 0
    receiveLoopRunning := true
    mainLoopRunning := true }

/-- Method `(*Player).TransmitPacket`. -/
def TransmitPacket {κ : Type} (player : Player κ) (packet : Bytes) : Outcome (Player κ) :=
  match packet with
  | none => .done player
  | some _ =>
    match player.txQueue.send packet with
    | .done q => .done { player with txQueue := q }
    | .blocked => .blocked
    | .fault f => .fault f

/-- Method `(*Player).PacketKeepAlive`. -/
def PacketKeepAlive {κ : Type} (w : World κ) : World κ := w

/-- Method `(*Player).PacketChatMessage`. -/
def PacketChatMessage {κ : Type} (w : World κ) (message : String) : World κ :=
  { w with gameQueue := w.gameQueue ++ [GameCall.sendChatMessage message] }

/-- Method `(*Player).PacketDisconnect`. -/
def PacketDisconnect {κ : Type} (w : World κ) (_reason : String) : World κ :=
  { w with gameQueue := w.gameQueue ++ [GameCall.disconnect] }

/-- The body of the closure that `PacketDisconnect` enqueues, as the game loop runs it. -/
def runDisconnect {κ : Type} (w : World κ) : Except Fault (World κ) :=
  match w.player.txQueue.close with
  | .error f => .error f
  | .ok q =>
    .ok { w with
      listed := false
      player := { w.player with txQueue := q, conn := w.player.conn.Close } }

/-- A packet as `proto.ServerReadPacket` dispatches it to its handler, for three of the
packet kinds: keep-alive, chat message and disconnect. -/
inductive ClientPacket where
  | keepAlive
  | chatMessage (message : String)
  | disconnect (reason : String)
  deriving DecidableEq, Repr

/-- What one call `proto.ServerReadPacket(player.conn, player)` does: it reads a packet
and calls its handler, returning nil, or it returns `os.EOF` or another error. -/
inductive ReadResult where
  | packet (p : ClientPacket)
  | eof
  | error (message : String)
  deriving DecidableEq, Repr

/-- The handler call that `proto.ServerReadPacket` makes for a packet. -/
def handlePacket {κ : Type} (w : World κ) : ClientPacket → World κ
  | .keepAlive => PacketKeepAlive w
  | .chatMessage message => PacketChatMessage w message
  | .disconnect reason => PacketDisconnect w reason

/-- Method `(*Player).receiveLoop`, run over the results of its successive calls of
`proto.ServerReadPacket`.  When the results run out the loop is waiting in a read. -/
def receiveLoop {κ : Type} : World κ → List ReadResult → World κ
  | w, [] => w
  | w, .packet p :: rest => receiveLoop (handlePacket w p) rest
  | w, .eof :: _ =>
    { w with disconnectionCount := w.disconnectionCount + 1, receiveLoopRunning := false }
  | w, .error _ :: _ =>
    { w with disconnectionCount := w.disconnectionCount + 1, receiveLoopRunning := false }

/-- Which ready case a `select` of `mainLoop` takes. -/
inductive Arm where
  | mainQueue
  | txQueue
  deriving DecidableEq, Repr

/-- One iteration of the `for` of `mainLoop` taking the given case of the `select`;
`run f` is the call `f(player)` made by `runQueuedCall`.  The iteration is blocked when the
receive of that case has nothing to take.  A receive on a closed and drained channel yields
the zero value: nil bytes end the loop, a nil closure faults when called. -/
def mainLoopStep {κ : Type} (run : κ → World κ → World κ) (w : World κ) :
    Arm → Outcome (World κ)
  | .mainQueue =>
    match w.player.mainQueue.recv with
    | .value f q => .done (run f { w with player := { w.player with mainQueue := q } })
    | .drained => .fault Fault.nilFuncCall
    | .blocked => .blocked
  | .txQueue =>
    match w.player.txQueue.recv with
    | .blocked => .blocked
    | .drained => .done { w with mainLoopRunning := false }
    | .value none q =>
      .done { w with player := { w.player with txQueue := q }, mainLoopRunning := false }
    | .value (some bs) q =>
      match w.player.conn.Write bs with
      | none =>
        .done { w with player := { w.player with txQueue := q }, mainLoopRunning := false }
      | some conn => .done { w with player := { w.player with txQueue := q, conn := conn } }

/-- Method `(*Player).mainLoop` along a schedule of `select` choices: it stops at the end
of the schedule, when the loop has returned, or when the chosen case blocks or faults. -/
def mainLoop {κ : Type} (run : κ → World κ → World κ) :
    World κ → List Arm → Outcome (World κ)
  | w, [] => .done w
  | w, arm :: rest =>
    if w.mainLoopRunning then
      match mainLoopStep run w arm with
      | .done w1 => mainLoop run w1 rest
      | .blocked => .blocked
      | .fault f => .fault f
    else .done w

end Players

/-! ## Properties of the slot routing -/

namespace Window

theorem workbenchInvCraftEnd_pos (k : SlotCounts) : 0 < workbenchInvCraftEnd k := by
  unfold workbenchInvCraftEnd workbenchInvCraftStart workbenchInvCraftNum
  have h : (0 : Int) ≤ (k.WorkbenchInvCraftWidth : Int) * (k.WorkbenchInvCraftHeight : Int) :=
    Int.mul_nonneg (Int.ofNat_nonneg _) (Int.ofNat_nonneg _)
  omega

theorem workbenchInvMainEnd_ge (k : SlotCounts) :
    workbenchInvCraftEnd k ≤ workbenchInvMainEnd k := by
  unfold workbenchInvMainEnd workbenchInvMainStart
  omega

theorem workbenchInvHoldingEnd_ge (k : SlotCounts) :
    workbenchInvMainEnd k ≤ workbenchInvHoldingEnd k := by
  unfold workbenchInvHoldingEnd workbenchInvHoldingStart
  omega

/-- The region found for a slot index is the only region whose range contains it. -/
theorem owningRegion_eq_some_iff (k : SlotCounts) (slotId : Int) (r : Region) :
    owningRegion k slotId = some r ↔ r.contains k slotId := by
  have h1 := workbenchInvCraftEnd_pos k
  have h2 := workbenchInvMainEnd_ge k
  have h3 := workbenchInvHoldingEnd_ge k
  have e : owningRegion k slotId =
      if Region.craft.contains k slotId then some Region.craft
      else if Region.main.contains k slotId then some Region.main
      else if Region.holding.contains k slotId then some Region.holding
      else none := by
    unfold owningRegion
    by_cases a1 : Region.craft.contains k slotId <;>
      by_cases a2 : Region.main.contains k slotId <;>
      by_cases a3 : Region.holding.contains k slotId <;>
      simp [List.find?, a1, a2, a3]
  rw [e]
  unfold Region.contains
  cases r <;>
    simp only [Region.start, Region.stop, workbenchInvCraftStart, workbenchInvMainStart,
      workbenchInvHoldingStart] <;>
    split_ifs <;>
    simp only [Option.some.injEq, reduceCtorEq, false_iff, true_iff, not_and, not_lt] <;>
    omega

/-- The routing on the 3 by 3 workbench: slots 0 to 9 go to the crafting inventory, 10 to
36 to the main inventory at local index `slotId - 10`, 37 to 45 to the holding inventory
at local index `slotId - 37`, and slot 46 goes nowhere. -/
theorem Click_sample :
    WorkbenchWindow.Click sampleCounts sampleOps
        { crafting := [4], main := [5], holding := [6] } 9 7 false true =
      { window := { crafting := [9, 4], main := [5], holding := [6] }, cursor := 8,
        accepted := true, calls := [SubCall.craftingClick 9 7 false true] } ∧
    WorkbenchWindow.Click sampleCounts sampleOps
        { crafting := [4], main := [5], holding := [6] } 12 7 true false =
      { window := { crafting := [4], main := [2, 5], holding := [6] }, cursor := 9,
        accepted := false, calls := [SubCall.mainStandardClick 2 7 true false] } ∧
    WorkbenchWindow.Click sampleCounts sampleOps
        { crafting := [4], main := [5], holding := [6] } 45 7 false false =
      { window := { crafting := [4], main := [5], holding := [8, 6] }, cursor := 9,
        accepted := true, calls := [SubCall.holdingStandardClick 8 7 false false] } ∧
    WorkbenchWindow.Click sampleCounts sampleOps
        { crafting := [4], main := [5], holding := [6] } 46 7 false false =
      { window := { crafting := [4], main := [5], holding := [6] }, cursor := 7,
        accepted := false, calls := [] } := by
  refine ⟨?_, ?_, ?_, ?_⟩ <;> decide

/-- C1: a click on a negative slot index is not accepted, makes no call into the crafting,
main or holding inventory, and leaves the three inventories and the cursor as they were. -/
theorem Click_negative_slot_rejected {WInv Inv Slot : Type} (k : SlotCounts)
    (ops : InventoryOps WInv Inv Slot) (w : WorkbenchWindow WInv Inv) (slotId : Int)
    (cursor : Slot) (rightClick shiftClick : Bool) (h : slotId < 0) :
    (WorkbenchWindow.Click k ops w slotId cursor rightClick shiftClick).accepted = false ∧
    (WorkbenchWindow.Click k ops w slotId cursor rightClick shiftClick).calls = [] ∧
    (WorkbenchWindow.Click k ops w slotId cursor rightClick shiftClick).window = w ∧
    (WorkbenchWindow.Click k ops w slotId cursor rightClick shiftClick).cursor = cursor := by
  simp [WorkbenchWindow.Click, h]

/-- Instance of C1: slot index -1 on a window with non-empty inventories. -/
theorem Click_negative_slot_rejected_witness :
    (-1 : Int) < 0 ∧
    (WorkbenchWindow.Click sampleCounts sampleOps
      { crafting := [4], main := [5], holding := [6] } (-1) 7 false true).accepted = false ∧
    (WorkbenchWindow.Click sampleCounts sampleOps
      { crafting := [4], main := [5], holding := [6] } (-1) 7 false true).calls = [] ∧
    (WorkbenchWindow.Click sampleCounts sampleOps
      { crafting := [4], main := [5], holding := [6] } (-1) 7 false true).window =
      { crafting := [4], main := [5], holding := [6] } ∧
    (WorkbenchWindow.Click sampleCounts sampleOps
      { crafting := [4], main := [5], holding := [6] } (-1) 7 false true).cursor = 7 :=
  ⟨by decide, Click_negative_slot_rejected sampleCounts sampleOps
    { crafting := [4], main := [5], holding := [6] } (-1) 7 false true (by decide)⟩

/-- C2: on a slot index that is not negative, `Click` is the reference routing over the
three contiguous ranges.  The range found is the only one containing the index; below
`workbenchInvHoldingEnd` exactly one call is made, into the inventory owning that range,
at the local index and with the cursor and flags given, and its result is returned; from
`workbenchInvHoldingEnd` on no call is made, nothing changes and the click is not
accepted. -/
theorem Click_eq_routeClick {WInv Inv Slot : Type} (k : SlotCounts)
    (ops : InventoryOps WInv Inv Slot) (w : WorkbenchWindow WInv Inv) (slotId : Int)
    (cursor : Slot) (rightClick shiftClick : Bool) (h : 0 ≤ slotId) :
    WorkbenchWindow.Click k ops w slotId cursor rightClick shiftClick =
      routeClick k ops w slotId cursor rightClick shiftClick ∧
    (∀ r : Region, r.contains k slotId ↔ owningRegion k slotId = some r) ∧
    (slotId < workbenchInvHoldingEnd k →
      (WorkbenchWindow.Click k ops w slotId cursor rightClick shiftClick).calls.length = 1) ∧
    (workbenchInvHoldingEnd k ≤ slotId →
      WorkbenchWindow.Click k ops w slotId cursor rightClick shiftClick =
        { window := w, cursor := cursor, accepted := false, calls := [] }) := by
  have h1 := workbenchInvCraftEnd_pos k
  have h2 := workbenchInvMainEnd_ge k
  have h3 := workbenchInvHoldingEnd_ge k
  have hneg : ¬ slotId < 0 := by omega
  refine ⟨?_, fun r => (owningRegion_eq_some_iff k slotId r).symm, ?_, ?_⟩
  · by_cases c1 : slotId < workbenchInvCraftEnd k
    · have e : owningRegion k slotId = some Region.craft :=
        (owningRegion_eq_some_iff k slotId _).2 ⟨by simpa [Region.start, workbenchInvCraftStart]
          using h, c1⟩
      simp [WorkbenchWindow.Click, routeClick, e, hneg, c1, Region.start]
    · by_cases c2 : slotId < workbenchInvMainEnd k
      · have e : owningRegion k slotId = some Region.main :=
          (owningRegion_eq_some_iff k slotId _).2
            ⟨by simp only [Region.start, workbenchInvMainStart]; omega, c2⟩
        simp [WorkbenchWindow.Click, routeClick, e, hneg, c1, c2, Region.start]
      · by_cases c3 : slotId < workbenchInvHoldingEnd k
        · have e : owningRegion k slotId = some Region.holding :=
            (owningRegion_eq_some_iff k slotId _).2
              ⟨by simp only [Region.start, workbenchInvHoldingStart]; omega, c3⟩
          simp [WorkbenchWindow.Click, routeClick, e, hneg, c1, c2, c3, Region.start]
        · have e : owningRegion k slotId = none := by
            cases hr : owningRegion k slotId with
            | none => rfl
            | some r =>
              have hc := (owningRegion_eq_some_iff k slotId r).1 hr
              cases r <;> simp only [Region.contains, Region.stop] at hc <;> omega
          simp [WorkbenchWindow.Click, routeClick, e, hneg, c1, c2, c3]
  · intro hlt
    by_cases c1 : slotId < workbenchInvCraftEnd k
    · simp [WorkbenchWindow.Click, hneg, c1]
    · by_cases c2 : slotId < workbenchInvMainEnd k
      · simp [WorkbenchWindow.Click, hneg, c1, c2]
      · simp [WorkbenchWindow.Click, hneg, c1, c2, hlt]
  · intro hge
    have c1 : ¬ slotId < workbenchInvCraftEnd k := by omega
    have c2 : ¬ slotId < workbenchInvMainEnd k := by omega
    have c3 : ¬ slotId < workbenchInvHoldingEnd k := by omega
    simp [WorkbenchWindow.Click, hneg, c1, c2, c3]

/-- Instance of C2: slot index 12 of the 3 by 3 workbench lies in the main range, whose
start is 10. -/
theorem Click_eq_routeClick_witness :
    (0 : Int) ≤ 12 ∧
    (WorkbenchWindow.Click sampleCounts sampleOps
        { crafting := [4], main := [5], holding := [6] } 12 7 false true =
      routeClick sampleCounts sampleOps
        { crafting := [4], main := [5], holding := [6] } 12 7 false true ∧
    (∀ r : Region, r.contains sampleCounts 12 ↔ owningRegion sampleCounts 12 = some r) ∧
    ((12 : Int) < workbenchInvHoldingEnd sampleCounts →
      (WorkbenchWindow.Click sampleCounts sampleOps
        { crafting := [4], main := [5], holding := [6] } 12 7 false true).calls.length = 1) ∧
    (workbenchInvHoldingEnd sampleCounts ≤ 12 →
      WorkbenchWindow.Click sampleCounts sampleOps
          { crafting := [4], main := [5], holding := [6] } 12 7 false true =
        { window := { crafting := [4], main := [5], holding := [6] }, cursor := 7,
          accepted := false, calls := [] })) :=
  ⟨by decide, Click_eq_routeClick sampleCounts sampleOps
    { crafting := [4], main := [5], holding := [6] } 12 7 false true (by decide)⟩

end Window

/-! ## Properties of the block type table -/

namespace Block

/-- On a map that was made, the loop of `CreateBlockItemTypes` does not panic; it keeps the
entries the map had, every entry it adds comes from a defined block type at an index that
converts to its key, and afterwards every defined block type has an entry under the key
its index converts to. -/
theorem createBlockItemTypesFrom_made {K : Type} [DecidableEq K] (toItemTypeId : Nat → K)
    (MaxStackDefault : Nat) (rest : List BlockType) :
    ∀ (id : Nat) (entries : K → Option (ItemTypePtr K)),
      ∃ after : K → Option (ItemTypePtr K),
        createBlockItemTypesFrom toItemTypeId MaxStackDefault rest id (.made entries) =
          .ok (.made after) ∧
        (∀ (key : K) (v : ItemTypePtr K), entries key = some v → after key = some v) ∧
        (∀ (key : K) (v : ItemTypePtr K), entries key = none → after key = some v →
          ∃ (j : Nat) (blockType : BlockType), rest[j]? = some blockType ∧
            blockType.defined = true ∧ toItemTypeId (id + j) = key ∧
            v = some { Id := toItemTypeId (id + j), Name := blockType.Name,
                       MaxStack := MaxStackDefault }) ∧
        (∀ (j : Nat) (blockType : BlockType), rest[j]? = some blockType →
          blockType.defined = true → after (toItemTypeId (id + j)) ≠ none) := by
  induction rest with
  | nil =>
    intro id entries
    refine ⟨entries, rfl, fun _ _ h => h, ?_, ?_⟩
    · intro key v h hv
      rw [h] at hv
      exact absurd hv (by simp)
    · intro j blockType hj
      simp at hj
  | cons b rest ih =>
    intro id entries
    have shift : ∀ j : Nat, id + 1 + j = id + (j + 1) := fun j => by omega
    by_cases hd : b.defined = true
    · cases hex : entries (toItemTypeId id) with
      | some v0 =>
        obtain ⟨after, hrun, hkeep, hadd, hpres⟩ := ih (id + 1) entries
        refine ⟨after, ?_, hkeep, ?_, ?_⟩
        · rw [createBlockItemTypesFrom]
          simp [hd, ItemTypeMap.lookup, hex, hrun]
        · intro key v h hv
          obtain ⟨j, blockType, hj, hdef, hk, hval⟩ := hadd key v h hv
          rw [shift j] at hk hval
          exact ⟨j + 1, blockType, by simpa using hj, hdef, hk, hval⟩
        · intro j blockType hj hdef
          cases j with
          | zero =>
            rw [Nat.add_zero, hkeep _ _ hex]
            simp
          | succ j =>
            simp only [List.getElem?_cons_succ] at hj
            rw [← shift j]
            exact hpres j blockType hj hdef
      | none =>
        obtain ⟨after, hrun, hkeep, hadd, hpres⟩ := ih (id + 1)
          (fun k => if k = toItemTypeId id then
            some (some { Id := toItemTypeId id, Name := b.Name, MaxStack := MaxStackDefault })
            else entries k)
        have hnew : after (toItemTypeId id) =
            some (some { Id := toItemTypeId id, Name := b.Name,
                         MaxStack := MaxStackDefault }) :=
          hkeep _ _ (by simp)
        refine ⟨after, ?_, ?_, ?_, ?_⟩
        · rw [createBlockItemTypesFrom]
          simp [hd, ItemTypeMap.lookup, hex, ItemTypeMap.assign, hrun]
        · intro key v h
          apply hkeep
          have hne : key ≠ toItemTypeId id := by
            intro e
            rw [e, hex] at h
            exact absurd h (by simp)
          simp [hne, h]
        · intro key v h hv
          by_cases hkey : key = toItemTypeId id
          · rw [hkey, hnew] at hv
            refine ⟨0, b, by simp, hd, by simp [hkey], ?_⟩
            simpa using (Option.some.inj hv).symm
          · obtain ⟨j, blockType, hj, hdef, hk, hval⟩ := hadd key v (by simp [hkey, h]) hv
            rw [shift j] at hk hval
            exact ⟨j + 1, blockType, by simpa using hj, hdef, hk, hval⟩
        · intro j blockType hj hdef
          cases j with
          | zero =>
            rw [Nat.add_zero, hnew]
            simp
          | succ j =>
            simp only [List.getElem?_cons_succ] at hj
            rw [← shift j]
            exact hpres j blockType hj hdef
    · obtain ⟨after, hrun, hkeep, hadd, hpres⟩ := ih (id + 1) entries
      refine ⟨after, ?_, hkeep, ?_, ?_⟩
      · rw [createBlockItemTypesFrom]
        simp [hd, hrun]
      · intro key v h hv
        obtain ⟨j, blockType, hj, hdef, hk, hval⟩ := hadd key v h hv
        rw [shift j] at hk hval
        exact ⟨j + 1, blockType, by simpa using hj, hdef, hk, hval⟩
      · intro j blockType hj hdef
        cases j with
        | zero =>
          simp only [List.getElem?_cons_zero, Option.some.injEq] at hj
          rw [hj] at hd
          exact absurd hdef hd
        | succ j =>
          simp only [List.getElem?_cons_succ] at hj
          rw [← shift j]
          exact hpres j blockType hj hdef

/-- On the nil map the loop of `CreateBlockItemTypes` panics at the first defined block
type, and does nothing when no block type is defined. -/
theorem createBlockItemTypesFrom_nil {K : Type} [DecidableEq K] (toItemTypeId : Nat → K)
    (MaxStackDefault : Nat) (rest : List BlockType) :
    ∀ id : Nat,
      createBlockItemTypesFrom toItemTypeId MaxStackDefault rest id ItemTypeMap.nil =
        if rest.any (fun blockType => blockType.defined) then
          .error Fault.assignToNilMap
        else .ok ItemTypeMap.nil := by
  induction rest with
  | nil => intro id; rfl
  | cons b rest ih =>
    intro id
    rw [createBlockItemTypesFrom]
    by_cases hd : b.defined = true
    · simp [hd, ItemTypeMap.lookup, ItemTypeMap.assign]
    · simp [hd, ih]

/-- C5: `Get` with `id` equal to the length of the table passes the range check
`int(id) > len(*btl)` and faults at the index expression: on the three-entry table,
`id = 3` is an index out of range. -/
theorem Get_at_length_faults :
    BlockTypeList.Get sampleBlocks 3 = .error (Fault.indexOutOfRange 3 3) ∧
    BlockTypeList.Get [] 0 = .error (Fault.indexOutOfRange 0 0) := by
  constructor <;> rfl

/-- For every table, `Get` at the length of the table is an index out of range. -/
theorem Get_length_faults (btl : BlockTypeList) :
    BlockTypeList.Get btl (btl.length : Int) =
      .error (Fault.indexOutOfRange (btl.length : Int) btl.length) := by
  simp [BlockTypeList.Get]

/-- On an index of the table `Get` returns the entry and whether it is defined; outside
`[0, len]` it returns the nil pointer and `ok = false`. -/
theorem Get_in_range (btl : BlockTypeList) (id : Nat) (blockType : BlockType)
    (h : btl[id]? = some blockType) :
    BlockTypeList.Get btl (id : Int) = .ok (some id, blockType.defined) := by
  have hlt : id < btl.length := (List.getElem?_eq_some_iff.1 h).1
  simp [BlockTypeList.Get, h]
  omega

/-- C6, for a map that is not nil: `CreateBlockItemTypes` returns without a panic and keeps
every entry the map had; a key that was absent is present afterwards exactly when a
defined block type has an index converting to it, and it then holds a pointer to an item
type with that key as `Id`, the name of such a block type and `MaxStackDefault`; when no
two indices of the table convert to the same key, each defined block type whose key was
absent gets the item type with its own name. -/
theorem CreateBlockItemTypes_keeps_and_adds {K : Type} [DecidableEq K]
    (toItemTypeId : Nat → K) (MaxStackDefault : Nat) (btl : BlockTypeList)
    (entries : K → Option (ItemTypePtr K)) :
    ∃ after : K → Option (ItemTypePtr K),
      BlockTypeList.CreateBlockItemTypes toItemTypeId MaxStackDefault btl (.made entries) =
        .ok (.made after) ∧
      (∀ (key : K) (v : ItemTypePtr K), entries key = some v → after key = some v) ∧
      (∀ key : K, entries key = none →
        (after key ≠ none ↔
          ∃ (id : Nat) (blockType : BlockType), btl[id]? = some blockType ∧
            blockType.defined = true ∧ toItemTypeId id = key)) ∧
      (∀ (key : K) (v : ItemTypePtr K), entries key = none → after key = some v →
        ∃ (id : Nat) (blockType : BlockType), btl[id]? = some blockType ∧
          blockType.defined = true ∧ toItemTypeId id = key ∧
          v = some { Id := toItemTypeId id, Name := blockType.Name,
                     MaxStack := MaxStackDefault }) ∧
      ((∀ i j : Nat, i < btl.length → j < btl.length → toItemTypeId i = toItemTypeId j →
          i = j) →
        ∀ (id : Nat) (blockType : BlockType), btl[id]? = some blockType →
          blockType.defined = true → entries (toItemTypeId id) = none →
          after (toItemTypeId id) =
            some (some { Id := toItemTypeId id, Name := blockType.Name,
                         MaxStack := MaxStackDefault })) := by
  obtain ⟨after, hrun, hkeep, hadd, hpres⟩ :=
    createBlockItemTypesFrom_made toItemTypeId MaxStackDefault btl 0 entries
  have added : ∀ (key : K) (v : ItemTypePtr K), entries key = none → after key = some v →
      ∃ (id : Nat) (blockType : BlockType), btl[id]? = some blockType ∧
        blockType.defined = true ∧ toItemTypeId id = key ∧
        v = some { Id := toItemTypeId id, Name := blockType.Name,
                   MaxStack := MaxStackDefault } := by
    intro key v h hv
    obtain ⟨j, b, hj, hdef, hk, hval⟩ := hadd key v h hv
    rw [Nat.zero_add] at hk hval
    exact ⟨j, b, hj, hdef, hk, hval⟩
  have present : ∀ (id : Nat) (blockType : BlockType), btl[id]? = some blockType →
      blockType.defined = true → after (toItemTypeId id) ≠ none := by
    intro id b hj hdef
    have := hpres id b hj hdef
    rwa [Nat.zero_add] at this
  refine ⟨after, hrun, hkeep, ?_, added, ?_⟩
  · intro key h
    constructor
    · intro hne
      obtain ⟨v, hv⟩ := Option.ne_none_iff_exists'.1 hne
      obtain ⟨id, b, hj, hdef, hk, _⟩ := added key v h hv
      exact ⟨id, b, hj, hdef, hk⟩
    · rintro ⟨id, b, hj, hdef, hk⟩
      rw [← hk]
      exact present id b hj hdef
  · intro hinj id b hj hdef h
    obtain ⟨v, hv⟩ := Option.ne_none_iff_exists'.1 (present id b hj hdef)
    obtain ⟨id2, b2, hj2, _, hk2, hval2⟩ := added _ v h hv
    have hlt : id < btl.length := (List.getElem?_eq_some_iff.1 hj).1
    have hlt2 : id2 < btl.length := (List.getElem?_eq_some_iff.1 hj2).1
    have e : id2 = id := hinj id2 id hlt2 hlt hk2
    subst e
    rw [hj] at hj2
    have eb : b = b2 := Option.some.inj hj2
    subst eb
    rw [hv, hval2]

/-- The map left on the three-entry table with keys that are the indices themselves: the
entry under key 0 is kept, key 1 (not defined) stays absent and key 2 receives the item
type of dirt. -/
theorem CreateBlockItemTypes_sample :
    lookupAfter (BlockTypeList.CreateBlockItemTypes id 64 sampleBlocks (.made sampleItems)) 0 =
      some (some { Id := 0, Name := "cobble", MaxStack := 16 }) ∧
    lookupAfter (BlockTypeList.CreateBlockItemTypes id 64 sampleBlocks (.made sampleItems)) 1 =
      none ∧
    lookupAfter (BlockTypeList.CreateBlockItemTypes id 64 sampleBlocks (.made sampleItems)) 2 =
      some (some { Id := 2, Name := "dirt", MaxStack := 64 }) ∧
    lookupAfter (BlockTypeList.CreateBlockItemTypes id 64 sampleBlocks (.made sampleItems)) 3 =
      none := by
  refine ⟨?_, ?_, ?_, ?_⟩ <;> rfl

/-- Instance of C6 on the three-entry table, the one-entry map and the identity as the
conversion to keys: the call returns a map in which key 2 holds the item type of dirt. -/
theorem CreateBlockItemTypes_keeps_and_adds_witness :
    ∃ after : Nat → Option (ItemTypePtr Nat),
      BlockTypeList.CreateBlockItemTypes id 64 sampleBlocks (.made sampleItems) =
        .ok (.made after) ∧
      after 0 = some (some { Id := 0, Name := "cobble", MaxStack := 16 }) ∧
      after 2 = some (some { Id := 2, Name := "dirt", MaxStack := 64 }) := by
  obtain ⟨after, hrun, hkeep, _, _, hown⟩ :=
    CreateBlockItemTypes_keeps_and_adds id 64 sampleBlocks sampleItems
  exact ⟨after, hrun, hkeep 0 _ rfl,
    hown (fun _ _ _ _ h => h) 2
      { Name := "dirt", Opacity := 15, defined := true, Destructable := true, Solid := true,
        Replaceable := false, Attachable := true, Aspect := 0 }
      rfl rfl rfl⟩

/-- C6 fails on the nil map: on the three-entry table, whose index 0 is a defined block
type, the assignment into the nil map panics, so the call does not leave a map in which
key 0 holds the item type of stone. -/
theorem CreateBlockItemTypes_nil_map_faults :
    BlockTypeList.CreateBlockItemTypes id 64 sampleBlocks ItemTypeMap.nil =
      .error Fault.assignToNilMap ∧
    ¬ ∃ after : ItemTypeMap Nat,
      BlockTypeList.CreateBlockItemTypes id 64 sampleBlocks ItemTypeMap.nil = .ok after ∧
      after.lookup 0 = some (some { Id := 0, Name := "stone", MaxStack := 64 }) := by
  have h : BlockTypeList.CreateBlockItemTypes id 64 sampleBlocks ItemTypeMap.nil =
      .error Fault.assignToNilMap := rfl
  refine ⟨h, ?_⟩
  rintro ⟨after, hrun, _⟩
  rw [h] at hrun
  exact absurd hrun (by simp)

end Block

/-! ## Properties of the player connection -/

namespace Players

/-- A nil packet leaves the player as it is. -/
theorem TransmitPacket_nil {κ : Type} (player : Player κ) :
    TransmitPacket player none = .done player := rfl

/-- A non-nil packet is appended to an open `txQueue` that has room, whatever its
length. -/
theorem TransmitPacket_some_of_room {κ : Type} (player : Player κ) (bs : List Byte)
    (hopen : player.txQueue.closed = false)
    (hroom : player.txQueue.buf.length < player.txQueue.cap) :
    TransmitPacket player (some bs) =
      .done { player with
        txQueue := { player.txQueue with buf := player.txQueue.buf ++ [some bs] } } := by
  simp [TransmitPacket, Chan.send, hopen, hroom]

/-- A non-nil packet on a closed `txQueue` is a send on a closed channel. -/
theorem TransmitPacket_some_of_closed {κ : Type} (player : Player κ) (bs : List Byte)
    (hclosed : player.txQueue.closed = true) :
    TransmitPacket player (some bs) = .fault Fault.sendOnClosedChannel := by
  simp [TransmitPacket, Chan.send, hclosed]

/-- The handlers run by `receiveLoop` and the loop itself leave the player's queues and
connection as they are. -/
theorem receiveLoop_player {κ : Type} (reads : List ReadResult) :
    ∀ w : World κ, (receiveLoop w reads).player = w.player ∧
      (receiveLoop w reads).listed = w.listed := by
  induction reads with
  | nil => intro w; exact ⟨rfl, rfl⟩
  | cons r rest ih =>
    intro w
    cases r with
    | packet p =>
      have h := ih (handlePacket w p)
      cases p <;> exact h
    | eof => exact ⟨rfl, rfl⟩
    | error _ => exact ⟨rfl, rfl⟩

/-- C4: a non-nil packet of length zero is not skipped.  On a player just started,
`TransmitPacket` of the nil slice leaves `txQueue` empty, but `TransmitPacket` of `[]byte{}`
appends it to `txQueue`, and the next `txQueue` case of `mainLoop` hands it to
`conn.Write`. -/
theorem TransmitPacket_empty_slice_enqueued :
    TransmitPacket (startedPlayer Unit "p").player none = .done (startedPlayer Unit "p").player ∧
    TransmitPacket (startedPlayer Unit "p").player (some []) =
      .done { (startedPlayer Unit "p").player with
        txQueue := { buf := [some []], cap := 128, closed := false } } ∧
    mainLoopStep (fun _ w => w)
      { startedPlayer Unit "p" with
        player := { (startedPlayer Unit "p").player with
          txQueue := { buf := [some []], cap := 128, closed := false } } }
      Arm.txQueue =
      .done { startedPlayer Unit "p" with
        player := { (startedPlayer Unit "p").player with
          conn := { closed := false, written := [[]] } } } := by
  refine ⟨?_, ?_, ?_⟩ <;> rfl

/-- C8: a read error that is not end-of-stream only stops the receive loop.  On a player
just started, `receiveLoop` whose first `ServerReadPacket` returns such an error counts one
disconnection and returns; nothing is enqueued on the game, the player stays listed,
`txQueue` stays open and the connection stays open.  A disconnect packet does enqueue the
removing closure. -/
theorem receiveLoop_read_error_no_teardown :
    receiveLoop (startedPlayer Unit "p") [ReadResult.error "connection reset"] =
      { startedPlayer Unit "p" with disconnectionCount := 1, receiveLoopRunning := false } ∧
    (receiveLoop (startedPlayer Unit "p") [ReadResult.error "connection reset"]).gameQueue = [] ∧
    (receiveLoop (startedPlayer Unit "p") [ReadResult.error "connection reset"]).listed = true ∧
    (receiveLoop (startedPlayer Unit "p")
      [ReadResult.error "connection reset"]).player.txQueue.closed = false ∧
    (receiveLoop (startedPlayer Unit "p")
      [ReadResult.error "connection reset"]).player.conn.closed = false ∧
    (receiveLoop (startedPlayer Unit "p")
      [ReadResult.packet (ClientPacket.disconnect "quit")]).gameQueue =
      [GameCall.disconnect] := by
  refine ⟨?_, ?_, ?_, ?_, ?_, ?_⟩ <;> rfl

/-- C9: after the closure of `PacketDisconnect` has run, `TransmitPacket` of a non-nil
packet faults.  On a player just started that handles a disconnect packet, the closure
leaves `txQueue` and the connection closed, and `TransmitPacket` of the one-byte packet
`[1]` is then a send on a closed channel. -/
theorem TransmitPacket_after_disconnect_faults :
    ∃ w : World Unit,
      runDisconnect (PacketDisconnect (startedPlayer Unit "p") "quit") = .ok w ∧
      w.player.txQueue.closed = true ∧ w.player.conn.closed = true ∧ w.listed = false ∧
      TransmitPacket w.player (some [1]) = .fault Fault.sendOnClosedChannel :=
  ⟨_, rfl, rfl, rfl, rfl, rfl⟩

end Players

end Chunkymonkey
